import Mathlib

/-!
Verification of the Gator recommendation engine against its specification.

This file shallowly embeds the algorithmic core of the repository:

* `recommendation_engine/engine.py`   — `LJKRecommendationEngine`
  (collaborative filtering, cross-domain scoring, hybrid score fusion);
* `recommendation_engine/connection_map.py` — `CrossInterestConnectionMap`
  (connection graph, shortest paths, novelty scoring);
* `backend/services/recommendation_service.py` — `RecommendationService`
  (recommendations endpoint with recency fallback, feedback ingestion).

Modelling conventions:

* Python floats are modelled as exact rationals (`ℚ`).  Every quantity the
  claims mention (score weights, thresholds, clamping bounds) is a short
  decimal literal, so the rational model agrees with IEEE semantics on the
  comparisons at issue.
* Python strings are modelled as `String`; the case-insensitive operations
  (`str.lower`, SQL `ILIKE`) are modelled by ASCII lowercasing of the
  character codes (all data handled by the service is ASCII).
* Python dicts keyed by content/user id are modelled as association lists
  with insertion-order preserving upsert, matching CPython dict semantics.
* `list.sort(key=..., reverse=True)` / `sorted(..., reverse=True)` are
  modelled by a stable descending insertion sort (`sortByDesc`), which has
  the same specification (descending by key, ties in original order).
-/

/-! ### Small-step string helpers (ASCII model of `str.lower`, `in`, `split`) -/

/-- ASCII lowercase of a single character code (model of `str.lower` on the
ASCII data handled by the service). -/
def lowCode (n : Nat) : Nat :=
  if 65 ≤ n ∧ n ≤ 90 then n + 32 else n

/-- The lowercased character codes of a string: model of `text.lower()`. -/
def pyLower (s : String) : List Nat :=
  s.data.map (fun c => lowCode c.toNat)

/-- Contiguous-substring test on character-code lists: model of Python's
`needle in haystack` on strings. -/
def codesContain (haystack needle : List Nat) : Bool :=
  haystack.tails.any (fun t => needle.isPrefixOf t)

/-- Splitting a character-code list at spaces, dropping empty chunks:
model of Python's `str.split()` (whitespace split) on the space-separated
data handled by the service. -/
def wordsAux : List Nat → List Nat → List (List Nat)
  | [], cur => if cur = [] then [] else [cur.reverse]
  | c :: rest, cur =>
      if c = 32 then
        if cur = [] then wordsAux rest [] else cur.reverse :: wordsAux rest []
      else wordsAux rest (c :: cur)

/-- The lowercased words of a string: model of `text.lower().split()`. -/
def pyWords (s : String) : List (List Nat) :=
  wordsAux (pyLower s) []

/-- Model of SQL `column ILIKE '%pat%'` as used by
`UserInterest.topic.ilike(f"%{tag.name}%")`: case-insensitive
substring containment of the tag name in the topic. -/
def containsCI (topic pat : String) : Bool :=
  codesContain (pyLower topic) (pyLower pat)

/-! ### Association-list dictionaries (model of CPython dicts) -/

/-- Insert-or-overwrite for an association list, keeping the position of an
existing key and appending a fresh key at the end — CPython dict update
semantics. -/
def dInsert {β : Type} (k : Int) (v : β) : List (Int × β) → List (Int × β)
  | [] => [(k, v)]
  | (k', v') :: rest => if k' = k then (k, v) :: rest else (k', v') :: dInsert k v rest

/-- Model of `d.get(k, dflt)` on an association-list dictionary. -/
def dGet {β : Type} (d : List (Int × β)) (k : Int) (dflt : β) : β :=
  match d.lookup k with
  | some v => v
  | none => dflt

/-! ### Stable descending sort (model of `sorted(xs, key=..., reverse=True)`) -/

/-- Insert `x` into a descending-by-key sorted list, after all strictly
greater keys and before the first key `≤ key x` (stability: the element
being inserted comes from earlier in the original list). -/
def insertD {α β : Type} [LinearOrder β] (key : α → β) (x : α) : List α → List α
  | [] => [x]
  | y :: ys => if key x < key y then y :: insertD key x ys else x :: y :: ys

/-- Stable descending-by-key sort: model of Python's
`sorted(xs, key=key, reverse=True)` (Python's sort is stable, and with
`reverse=True` equal keys keep their original order, as here). -/
def sortByDesc {α β : Type} [LinearOrder β] (key : α → β) : List α → List α
  | [] => []
  | x :: xs => insertD key x (sortByDesc key xs)

/-! ### Data model of `recommendation_engine/engine.py` -/

/-- A tag dict as consumed by `LJKRecommendationEngine`
(`{'id': ..., 'name': ...}`). -/
structure TagE where
  id : Int
  name : String
deriving DecidableEq

/-- A content dict as consumed by `LJKRecommendationEngine`
(`{'id': ..., 'title': ..., 'summary': ..., 'tags': [...]}`). -/
structure ContentE where
  id : Int
  title : String := ""
  summary : Option String := none
  tags : List TagE := []
deriving DecidableEq

/-- An interest dict (`{'id': ..., 'topic': ..., 'weight': ...}`). -/
structure InterestE where
  id : Int
  topic : String
  weight : ℚ := 1
deriving DecidableEq

/-- An interaction dict
(`{'user_id': ..., 'content_id': ..., 'interaction_type': ...}`). -/
structure InteractionE where
  user_id : Int
  content_id : Int
  interaction_type : String
deriving DecidableEq

/-! ### `calculate_collaborative_scores` / `_find_similar_users`
(engine.py lines 98–158) -/

/-- One step of building the user-item matrix: `rating = 1.0` for a like,
`0.5` otherwise; nested dict insertion with CPython semantics. -/
def matrixInsert (u i : Int) (r : ℚ) :
    List (Int × List (Int × ℚ)) → List (Int × List (Int × ℚ))
  | [] => [(u, [(i, r)])]
  | (u', row) :: rest =>
      if u' = u then (u, dInsert i r row) :: rest
      else (u', row) :: matrixInsert u i r rest

/-- The user-item matrix built from the interaction log
(engine.py lines 104–113). -/
def buildUserItemMatrix (interactions : List InteractionE) :
    List (Int × List (Int × ℚ)) :=
  interactions.foldl
    (fun m t =>
      matrixInsert t.user_id t.content_id
        (if t.interaction_type = "like" then 1 else 1/2) m)
    []

/-- Model of `_find_similar_users` (engine.py lines 137–158): Jaccard similarity of
interacted-item sets, threshold `> 0.1`, sorted descending, top 10. -/
def findSimilarUsers (user_id : Int)
    (matrix : List (Int × List (Int × ℚ))) : List (Int × ℚ) :=
  match matrix.lookup user_id with
  | none => []
  | some myRow =>
      let user_items : Finset Int := (myRow.map (·.1)).toFinset
      let candidates := matrix.filterMap (fun p =>
        if p.1 = user_id then none
        else
          let other_items : Finset Int := (p.2.map (·.1)).toFinset
          let inter := (user_items ∩ other_items).card
          let uni := (user_items ∪ other_items).card
          if 0 < uni then
            let s : ℚ := (inter : ℚ) / (uni : ℚ)
            if 1/10 < s then some (p.1, s) else none
          else none)
      (sortByDesc (·.2) candidates).take 10

/-- Model of `calculate_collaborative_scores` (engine.py lines 98–135). -/
def calculateCollaborativeScores (user_id : Int)
    (user_interactions : List InteractionE) (content_data : List ContentE) :
    List (Int × ℚ) :=
  if user_interactions = [] then []
  else
    let matrix := buildUserItemMatrix user_interactions
    let similar := findSimilarUsers user_id matrix
    content_data.foldl
      (fun scores c =>
        let sw := similar.foldl
          (fun (acc : ℚ × ℚ) su =>
            match ((matrix.lookup su.1).getD []).lookup c.id with
            | some r => (acc.1 + su.2 * r, acc.2 + su.2)
            | none => acc)
          (0, 0)
        dInsert c.id (if 0 < sw.2 then sw.1 / sw.2 else 0) scores)
      []

/-! ### `calculate_cross_domain_scores` / `_extract_domain`
(engine.py lines 186–235) -/

/-- Model of `_extract_domain` (engine.py lines 219–235): keyword-membership domain
classification, first matching rule wins, default `general`. -/
def extractDomain (text : String) : String :=
  let t := pyLower text
  if (["tech", "software", "ai", "machine learning"].map pyLower).any
      (fun w => codesContain t w) then "technology"
  else if (["politics", "government", "policy"].map pyLower).any
      (fun w => codesContain t w) then "politics"
  else if (["science", "research", "study"].map pyLower).any
      (fun w => codesContain t w) then "science"
  else if (["business", "startup", "finance"].map pyLower).any
      (fun w => codesContain t w) then "business"
  else if (["health", "medical", "medicine"].map pyLower).any
      (fun w => codesContain t w) then "health"
  else "general"

/-- The set of domains of a content item's tags (engine.py lines 198–201). -/
def contentDomains (c : ContentE) : Finset String :=
  c.tags.foldl (fun s tg => insert (extractDomain tg.name) s) ∅

/-- The set of domains of the user's interest terms
(engine.py lines 192–195). -/
def interestDomains (user_interests : List String) : Finset String :=
  user_interests.foldl (fun s t => insert (extractDomain t) s) ∅

/-- Model of `calculate_cross_domain_scores` (engine.py lines 186–217):
`novelty = |new domains| / max(|content domains|, 1)`, bridge bonus `0.5`
when the content spans more than one domain, combined
`0.7·novelty + 0.3·bridge`. -/
def calculateCrossDomainScores (user_interests : List String)
    (content_data : List ContentE) : List (Int × ℚ) :=
  let idoms := interestDomains user_interests
  content_data.foldl
    (fun scores c =>
      let cdoms := contentDomains c
      let novelty_score : ℚ := ((cdoms \ idoms).card : ℚ) / (max cdoms.card 1 : ℚ)
      let bridge_score : ℚ := if 1 < cdoms.card then 1/2 else 0
      dInsert c.id (0.7 * novelty_score + 0.3 * bridge_score) scores)
    []

/-! ### `get_hybrid_recommendations` fusion stage and `_generate_reasoning`
(engine.py lines 237–303) -/

/-- A recommendation record produced by `get_hybrid_recommendations`
(engine.py lines 276–281). -/
structure RecommendationE where
  content : ContentE
  score : ℚ
  algorithm : String
  reasoning : String
deriving DecidableEq

/-- Whether an interest term and a tag overlap in the word-containment
sense used by `_generate_reasoning` (engine.py line 295):
`any(word in tag for word in interest.split()) or
any(word in interest for word in tag.split())`, on lowercased text. -/
def wordOverlap (interestLow tagLow : List Nat) : Bool :=
  (wordsAux interestLow []).any (fun w => codesContain tagLow w) ||
    (wordsAux tagLow []).any (fun w => codesContain interestLow w)

/-- Rebuild a string from ASCII character codes (used to echo the matched
lowercased interest terms in the reasoning message). -/
def stringOfCodes (codes : List Nat) : String :=
  String.mk (codes.map Char.ofNat)

/-- Model of `_generate_reasoning` (engine.py lines 286–303).  The contractions in
the source's message strings are paraphrased without apostrophes; the
branch structure and the matched-interest listing are as in the source. -/
def generateReasoning (content : ContentE) (user_interests : List InterestE)
    (score : ℚ) : String :=
  let content_tags := content.tags.map (fun tg => pyLower tg.name)
  let interest_topics := user_interests.map (fun i => pyLower i.topic)
  let matching_interests := interest_topics.flatMap (fun it =>
    content_tags.filterMap (fun tg =>
      if wordOverlap it tg then some it else none))
  if matching_interests ≠ [] then
    "Recommended because you are interested in: " ++
      String.intercalate ", " ((matching_interests.take 2).map stringOfCodes)
  else if 0.7 < score then "High-quality content that might interest you"
  else "Exploration recommendation to discover new topics"

/-- The fused score of a content id given the four per-scorer maps
(engine.py lines 256–267): `0.4·tfidf + 0.3·collaborative + 0.2·graph +
0.1·cross_domain`, each map contributing `0.0` when the id is absent. -/
def fusedScore (tfidf collab graph cross : List (Int × ℚ)) (cid : Int) : ℚ :=
  0.4 * dGet tfidf cid 0 + 0.3 * dGet collab cid 0 +
    0.2 * dGet graph cid 0 + 0.1 * dGet cross cid 0

/-- The `final_scores` map of `get_hybrid_recommendations`
(engine.py lines 251–269), parameterized by the four per-scorer score
maps.  The TF-IDF/cosine and PageRank scorers (lines 246, 248) are
floating-point library calls (`sklearn`, `networkx`) treated as opaque
score-map inputs here; the collaborative and cross-domain scorers are
embedded above and can be passed in. -/
def hybridFinalScores (tfidf collab graph cross : List (Int × ℚ))
    (content_data : List ContentE) : List (Int × ℚ) :=
  content_data.foldl
    (fun m c => dInsert c.id (fusedScore tfidf collab graph cross c.id) m) []

/-- The score-combination, sort and truncate stage of
`get_hybrid_recommendations` (engine.py lines 271–284), continuing from
`hybridFinalScores`. -/
def getHybridRecommendations (tfidf collab graph cross : List (Int × ℚ))
    (user_interests : List InterestE) (content_data : List ContentE)
    (limit : Nat) : List RecommendationE :=
  let final_scores := hybridFinalScores tfidf collab graph cross content_data
  let sorted_content :=
    sortByDesc (fun c => dGet final_scores c.id 0) content_data
  (sorted_content.take limit).map (fun c =>
    { content := c
      score := dGet final_scores c.id 0
      algorithm := "hybrid"
      reasoning :=
        generateReasoning c user_interests (dGet final_scores c.id 0) })

/-! ### Data model of `recommendation_engine/connection_map.py` -/

/-- An interest dict as consumed by `CrossInterestConnectionMap`
(`{'name': ..., 'weight': ..., 'category': ...}`). -/
structure InterestC where
  name : String
  weight : ℚ := 1
  category : String := "general"
deriving DecidableEq

/-- A content dict as consumed by `CrossInterestConnectionMap`
(`{'id': ..., 'title': ..., 'tags': [str], 'category': ...}`). -/
structure ContentC where
  id : Int
  title : String := ""
  tags : List String := []
  category : String := "general"
deriving DecidableEq

/-- A graph node of the connection map.  The source names nodes by string:
an interest node is named by the interest's `name`, a content node by
`"content_" + str(id)`.  The two name spaces are modelled by a tagged sum
(faithful on every input where no interest is literally named
`content_<digits>`; `node.startswith('content_')` becomes the
`content` constructor test). -/
inductive CNode where
  | interest (name : String)
  | content (id : Int)
deriving DecidableEq

/-- The display name of a node, as the source's string node labels. -/
def CNode.nodeName : CNode → String
  | .interest n => n
  | .content i => "content_" ++ toString i

/-- Node attributes stored by `build_connection_graph`
(`type` is determined by the `CNode` constructor). -/
structure CNodeAttrs where
  weight : ℚ := 1
  category : String := "general"
  title : String := ""
  tags : List String := []
deriving DecidableEq

/-- The connection graph: nodes in insertion order with their attributes,
and an undirected edge list (edge weights are not consulted by the
shortest-path or novelty computations, so they are not stored). -/
structure CGraph where
  nodes : List (CNode × CNodeAttrs) := []
  edges : List (CNode × CNode) := []
deriving DecidableEq

/-- Model of `graph.add_node` with networkx semantics: re-adding an existing node
updates its attributes in place, a fresh node is appended. -/
def addNode (n : CNode) (a : CNodeAttrs) : List (CNode × CNodeAttrs) →
    List (CNode × CNodeAttrs)
  | [] => [(n, a)]
  | (n', a') :: rest =>
      if n' = n then (n, a) :: rest else (n', a') :: addNode n a rest

/-- Whether the undirected edge `{u, v}` is present. -/
def hasEdge (g : CGraph) (u v : CNode) : Bool :=
  g.edges.any (fun e => (e.1 = u ∧ e.2 = v) ∨ (e.1 = v ∧ e.2 = u))

/-- Model of `graph.add_edge` with networkx semantics (an undirected edge is stored
once; re-adding is a no-op here since edge attributes are unused). -/
def addEdge (g : CGraph) (u v : CNode) : CGraph :=
  if hasEdge g u v then g else { g with edges := g.edges ++ [(u, v)] }

/-- All ordered pairs `(l[i], l[j])` with `i < j`: the iteration pattern
`for i, x in enumerate(l): for y in l[i+1:]` used for cross-interest
edges and for the interest-pair scan of `find_novel_connections`. -/
def pairsUpper {α : Type} : List α → List (α × α)
  | [] => []
  | x :: xs => xs.map (fun y => (x, y)) ++ pairsUpper xs

/-- Model of `_calculate_tag_similarity` (connection_map.py lines 102–119):
Jaccard overlap of the word set of the interest text with the union of
the word sets of the tags. -/
def calculateTagSimilarity (interest : String) (tags : List String) : ℚ :=
  if tags = [] then 0
  else
    let interest_words : Finset (List Nat) := (pyWords interest).toFinset
    let tag_words : Finset (List Nat) :=
      (tags.flatMap (fun t => pyWords t)).toFinset
    if interest_words = ∅ ∨ tag_words = ∅ then 0
    else
      ((interest_words ∩ tag_words).card : ℚ) /
        ((interest_words ∪ tag_words).card : ℚ)

/-- Model of `_calculate_interest_similarity` (connection_map.py lines 121–128) in
the configuration exercised by `find_novel_connections`: no embedding
model is loaded, so the word-overlap fallback is always taken. -/
def calculateInterestSimilarity (name1 name2 : String) : ℚ :=
  calculateTagSimilarity name1 [name2]

/-- Model of `build_connection_graph` (connection_map.py lines 36–66): interest and
content nodes, interest–content edges above the `0.3` tag-similarity
threshold, cross-interest edges above the same threshold. -/
def buildConnectionGraph (user_interests : List InterestC)
    (content_data : List ContentC) : CGraph :=
  let g0 : CGraph := {}
  let g1 : CGraph :=
    { g0 with
      nodes := user_interests.foldl
        (fun ns i => addNode (.interest i.name)
          { weight := i.weight, category := i.category } ns) g0.nodes }
  let g2 : CGraph :=
    { g1 with
      nodes := content_data.foldl
        (fun ns c => addNode (.content c.id)
          { title := c.title, tags := c.tags, category := c.category } ns)
        g1.nodes }
  let g3 : CGraph := user_interests.foldl
    (fun g i => content_data.foldl
      (fun g c =>
        let sim := calculateTagSimilarity
          ((String.mk ((pyLower i.name).map Char.ofNat)))
          (c.tags.map (fun t => String.mk ((pyLower t).map Char.ofNat)))
        if 0.3 < sim then addEdge g (.interest i.name) (.content c.id) else g)
      g)
    g2
  (pairsUpper user_interests).foldl
    (fun g ij =>
      let sim := calculateInterestSimilarity ij.1.name ij.2.name
      if 0.3 < sim then addEdge g (.interest ij.1.name) (.interest ij.2.name)
      else g)
    g3

instance : Inhabited CNode := ⟨.interest ""⟩

/-- Whether a node is a content node (`node.startswith('content_')` in the
source's string labels). -/
def CNode.isContent : CNode → Bool
  | .content _ => true
  | .interest _ => false

/-- The attributes of a node in the graph (missing node: all defaults, as
`graph.nodes[node].get(..., default)`). -/
def lookupAttrs (g : CGraph) (n : CNode) : CNodeAttrs :=
  (g.nodes.lookup n).getD {}

/-- The neighbors of a node, in edge-insertion order (networkx adjacency
iteration order). -/
def neighborsOf (g : CGraph) (u : CNode) : List CNode :=
  g.edges.flatMap (fun e =>
    if e.1 = u then [e.2] else if e.2 = u then [e.1] else [])

/-- Fuelled breadth-first search producing a fewest-hops path to `target`.
Frontier paths are stored reversed (current node first); each fuel step
expands one BFS layer, so any returned path is shortest in hop count —
the guarantee `nx.shortest_path` gives on an unweighted call.  Among
equally short paths the first in expansion order is returned (the
source's choice among ties is an implementation detail of networkx;
no claim depends on it). -/
def bfsSearch (adj : CNode → List CNode) (target : CNode) :
    Nat → List (List CNode) → List CNode → Option (List CNode)
  | 0, _, _ => none
  | fuel + 1, frontier, visited =>
      match frontier.find? (fun p => p.headI = target) with
      | some p => some p.reverse
      | none =>
          let step := frontier.foldl
            (fun (acc : List (List CNode) × List CNode) p =>
              (adj p.headI).foldl
                (fun (acc : List (List CNode) × List CNode) v =>
                  if v ∈ acc.2 then acc else (acc.1 ++ [v :: p], v :: acc.2))
                acc)
            ([], visited)
          if step.1 = [] then none
          else bfsSearch adj target fuel step.1 step.2

/-- Model of `nx.shortest_path(graph, source, target)` on the (unweighted) call made
by `find_novel_connections`; `none` models the `NetworkXNoPath`
exception, which the caller turns into `continue`. -/
def shortestPath (g : CGraph) (s t : CNode) : Option (List CNode) :=
  if s = t then some [s]
  else bfsSearch (neighborsOf g) t (g.nodes.length + 1) [[s]] [s]

/-- Model of `_calculate_content_diversity` (connection_map.py lines 207–221):
unique categories among the bridging content nodes over their count,
0 when there are none. -/
def calculateContentDiversity (g : CGraph) (path : List CNode) : ℚ :=
  let content_nodes := ((path.drop 1).dropLast).filter CNode.isContent
  if content_nodes = [] then 0
  else
    let categories : Finset String := content_nodes.foldl
      (fun s n => insert (lookupAttrs g n).category s) ∅
    min 1 ((categories.card : ℚ) / (content_nodes.length : ℚ))

/-- Model of `_calculate_novelty_score` (connection_map.py lines 180–205):
`0.3·(pathLength−2) + 0.4·diversity + 0.3·(1−directSimilarity)` clamped
to `[0,1]`.  On the empty path `path[0]` raises and the handler returns
`0.0`. -/
def calculateNoveltyScore (g : CGraph) (path : List CNode) : ℚ :=
  match path with
  | [] => 0
  | _ :: _ =>
      let path_length : ℚ := (path.length : ℚ)
      let content_diversity := calculateContentDiversity g path
      let direct_similarity := calculateInterestSimilarity
        path.headI.nodeName path.getLastI.nodeName
      min 1 (max 0 ((path_length - 2) * 0.3 + content_diversity * 0.4 +
        (1 - direct_similarity) * 0.3))

/-- A bridging-content entry of a connection object
(connection_map.py lines 229–238; the source exposes the id as the node
label with `"content_"` stripped, i.e. exactly the content id). -/
structure ContentDetail where
  id : Int
  title : String
  tags : List String
  category : String
deriving DecidableEq

/-- A connection object (connection_map.py lines 240–247). -/
structure Connection where
  start_interest : String
  end_interest : String
  content_bridge : List ContentDetail
  novelty_score : ℚ
  path_length : Nat
  connection_type : String
deriving DecidableEq

instance : Inhabited Connection :=
  ⟨{ start_interest := "", end_interest := "", content_bridge := []
     novelty_score := 0, path_length := 0, connection_type := "" }⟩

/-- Model of `_create_connection_object` (connection_map.py lines 223–247). -/
def createConnectionObject (g : CGraph) (path : List CNode)
    (novelty : ℚ) : Connection :=
  { start_interest := path.headI.nodeName
    end_interest := path.getLastI.nodeName
    content_bridge := ((path.drop 1).dropLast).filterMap (fun n =>
      match n with
      | .content i =>
          let a := lookupAttrs g n
          some { id := i, title := a.title, tags := a.tags,
                 category := a.category }
      | .interest _ => none)
    novelty_score := novelty
    path_length := path.length
    connection_type := "cross_domain" }

/-- Model of `find_novel_connections` (connection_map.py lines 146–178): scan all
unordered interest-node pairs without a direct edge, keep shortest paths
of more than 2 nodes whose novelty score exceeds `0.7`, sort descending
by novelty and truncate to `max_connections`. -/
def findNovelConnections (user_interests : List InterestC)
    (content_data : List ContentC) (max_connections : Nat := 10) :
    List Connection :=
  let g := buildConnectionGraph user_interests content_data
  let interest_nodes :=
    (g.nodes.map (·.1)).filter (fun n => ¬ n.isContent)
  let novel := (pairsUpper interest_nodes).foldl
    (fun acc ab =>
      if hasEdge g ab.1 ab.2 then acc
      else
        match shortestPath g ab.1 ab.2 with
        | none => acc
        | some path =>
            if 2 < path.length then
              let nov := calculateNoveltyScore g path
              if 0.7 < nov then acc ++ [createConnectionObject g path nov]
              else acc
            else acc)
    []
  (sortByDesc (·.novelty_score) novel).take max_connections

/-! ### Data model of `backend/services/recommendation_service.py`
(ORM rows of `backend/models.py`, response shape of `backend/schemas.py`) -/

/-- A `Tag` row (models.py lines 60–69). -/
structure TagB where
  id : Int := 0
  name : String
  category : String := ""
deriving DecidableEq

/-- A `Content` row (models.py lines 43–58).  `created_at` is the ingestion
timestamp (server default `now()`), `published_at` the upstream
publication timestamp; both modelled as integer epochs. -/
structure ContentB where
  id : Int
  title : String := ""
  url : String := ""
  source : String := ""
  published_at : Int := 0
  summary : String := ""
  content_type : String := ""
  created_at : Int := 0
  tags : List TagB := []
deriving DecidableEq

/-- A `UserInterest` row (models.py lines 29–41). -/
structure InterestB where
  user_id : Int
  topic : String
  weight : ℚ := 1
deriving DecidableEq

/-- A `UserInteraction` row (models.py lines 71–83). -/
structure InteractionB where
  user_id : Int
  content_id : Int
  interaction_type : String
  duration : Option Int := none
deriving DecidableEq

/-- A `Recommendation` row (models.py lines 85–94). -/
structure RecB where
  user_id : Int
  content_id : Int
  score : ℚ
  algorithm : String := "hybrid"
  clicked : Bool := false
deriving DecidableEq

/-- A `FeedbackRequest` (schemas.py lines 89–93). -/
structure FeedbackRequestB where
  content_id : Int
  interaction_type : String
  duration : Option Int := none
deriving DecidableEq

/-- The database state visible to `RecommendationService`.  Row lists are
in insertion order, which is the order the service's unordered queries
and `.first()` calls observe. -/
structure DBState where
  contents : List ContentB := []
  interests : List InterestB := []
  interactions : List InteractionB := []
  recommendations : List RecB := []
deriving DecidableEq

/-- Model of `ContentResponse` (schemas.py lines 56–69): the response carries the
content row's own fields and its tags — it has no score field.  The
scored path and the recency fallback of `get_recommendations` both
return this same shape (`ContentResponse.from_orm`). -/
def contentResponseOf (c : ContentB) : ContentB := c

/-- Update the first element satisfying `p` (SQLAlchemy
`query.filter(...).first()` followed by a mutation), leaving every other
row unchanged. -/
def updFirst {α : Type} (p : α → Bool) (f : α → α) : List α → List α
  | [] => []
  | x :: xs => if p x then f x :: xs else x :: updFirst p f xs

/-- Model of `db.query(Content).filter(Content.id == cid).first()`. -/
def findContent (contents : List ContentB) (cid : Int) : Option ContentB :=
  contents.find? (fun c => c.id = cid)

/-- Whether an interest row matches the tag lookup of `submit_feedback`
(recommendation_service.py lines 169–172): same user and
`topic ILIKE '%tag.name%'`. -/
def interestMatches (uid : Int) (tagName : String) (i : InterestB) : Bool :=
  i.user_id = uid ∧ containsCI i.topic tagName

/-- Whether a recommendation row matches the feedback lookup of
`submit_feedback` (recommendation_service.py lines 179–182). -/
def recMatches (uid cid : Int) (r : RecB) : Bool :=
  r.user_id = uid ∧ r.content_id = cid

/-- The per-tag interest-weight update of `submit_feedback`
(recommendation_service.py lines 167–176): for each content tag, the
first matching interest row gets `weight + change` clamped to
`[0.1, 2.0]`. -/
def updateInterestsForTags (uid : Int) (change : ℚ) (tags : List TagB)
    (interests : List InterestB) : List InterestB :=
  tags.foldl
    (fun acc tg =>
      updFirst (interestMatches uid tg.name)
        (fun i => { i with weight := max 0.1 (min 2.0 (i.weight + change)) })
        acc)
    interests

/-- The `weight_change` table of `submit_feedback`
(recommendation_service.py lines 158–164). -/
def weightChangeOf (interaction_type : String) : ℚ :=
  if interaction_type = "like" then 0.1
  else if interaction_type = "dislike" then -0.1
  else if interaction_type = "view" then 0.05
  else 0

/-- Model of `submit_feedback` (recommendation_service.py lines 141–193).  On a
missing content id the `ValueError("Content not found")` aborts the
transaction before commit, so the state is unchanged; otherwise the
committed state appends the interaction, applies the per-tag interest
updates, and sets `clicked` on the first matching recommendation row
(its `score` is not touched).  The constant acknowledgement dict is not
modelled. -/
def submitFeedback (db : DBState) (user_id : Int) (fb : FeedbackRequestB) :
    Except String DBState :=
  match findContent db.contents fb.content_id with
  | none => .error "Content not found"
  | some content =>
      let change := weightChangeOf fb.interaction_type
      .ok
        { db with
          interactions := db.interactions ++
            [{ user_id := user_id, content_id := fb.content_id,
               interaction_type := fb.interaction_type,
               duration := fb.duration }]
          interests := updateInterestsForTags user_id change content.tags
            db.interests
          recommendations := updFirst (recMatches user_id fb.content_id)
            (fun r =>
              { r with
                clicked := fb.interaction_type = "like" ∨
                  fb.interaction_type = "view" })
            db.recommendations }

/-- Folding a whole feedback sequence through `submit_feedback`; a failing
submission leaves the state unchanged (the transaction is rolled back). -/
def submitFeedbackSeq (db : DBState) :
    List (Int × FeedbackRequestB) → DBState
  | [] => db
  | (uid, fb) :: rest =>
      match submitFeedback db uid fb with
      | .ok db' => submitFeedbackSeq db' rest
      | .error _ => submitFeedbackSeq db rest

/-- Model of `_calculate_collaborative_scores` of the backend service
(recommendation_service.py lines 98–134): users sharing an interest
topic, like-counts of their liked content, normalized by the total.
SQL result order is not pinned by the source queries; first-appearance
order is used, which no claim depends on. -/
def backendCollaborativeScores (db : DBState) (user_id : Int) :
    List (Int × ℚ) :=
  let user_topics : Finset String :=
    ((db.interests.filter (fun i => i.user_id = user_id)).map (·.topic)).toFinset
  let similar_user_ids :=
    ((db.interests.filter (fun i =>
        i.topic ∈ user_topics ∧ i.user_id ≠ user_id)).map (·.user_id)).dedup
  if similar_user_ids = [] then []
  else
    let liked := db.interactions.filter (fun t =>
      t.user_id ∈ similar_user_ids ∧ t.interaction_type = "like")
    let grouped : List (Int × ℚ) := liked.foldl
      (fun m t => dInsert t.content_id (dGet m t.content_id 0 + 1) m) []
    let total_likes : ℚ := (grouped.map (·.2)).sum
    grouped.map (fun p =>
      (p.1, if 0 < total_likes then p.2 / total_likes else 0))

/-- Model of `_get_recent_content` (recommendation_service.py lines 136–139):
content ordered by `created_at` descending, truncated to `limit`. -/
def getRecentContent (db : DBState) (limit : Nat) : List ContentB :=
  (sortByDesc (fun c => c.created_at) db.contents).take limit

/-- Model of `get_recommendations` (recommendation_service.py lines 21–66).  The
TF-IDF scorer (lines 68–96) is an `sklearn` floating-point computation
and is passed in as an opaque score map, exactly as `tfidf_scores` is
consumed.  Returns the response list and the post-commit state (the
scored path persists one `Recommendation` row per returned item; the
zero-interest fallback persists nothing). -/
def getRecommendations (db : DBState) (tfidfScores : List (Int × ℚ))
    (user_id : Int) (limit : Nat) : List ContentB × DBState :=
  let interest_topics :=
    (db.interests.filter (fun i => i.user_id = user_id)).map (·.topic)
  if interest_topics = [] then (getRecentContent db limit, db)
  else
    let content_with_tags :=
      db.contents.flatMap (fun c => c.tags.map (fun _ => c))
    if content_with_tags = [] then ([], db)
    else
      let collaborative_scores := backendCollaborativeScores db user_id
      let final_scores := content_with_tags.foldl
        (fun m c => dInsert c.id
          (0.6 * dGet tfidfScores c.id 0 +
            0.4 * dGet collaborative_scores c.id 0) m)
        []
      let sorted_content :=
        sortByDesc (fun c => dGet final_scores c.id 0) content_with_tags
      let top := sorted_content.take limit
      (top.map contentResponseOf,
        { db with
          recommendations := db.recommendations ++ top.map (fun c =>
            { user_id := user_id, content_id := c.id,
              score := dGet final_scores c.id 0, algorithm := "hybrid",
              clicked := false }) })

/-- Every interest weight of a state lies in the clamp range `[0.1, 2.0]`. -/
def weightsInRange (db : DBState) : Prop :=
  ∀ i ∈ db.interests, 0.1 ≤ i.weight ∧ i.weight ≤ 2.0

/-- Concrete interaction log for the collaborative-scorer scenarios: one
like by user 2 on content 5, with user 1 absent. -/
def c8Log : List InteractionE :=
  [{ user_id := 2, content_id := 5, interaction_type := "like" }]

/-- Concrete one-item catalog for the collaborative-scorer scenarios. -/
def c8Content : List ContentE := [{ id := 5 }]

/-- The cross-domain novelty fraction as the claim words it: the share of
content domains not among the user's interest domains, `0` when the
content has no tags (no `max(·,1)` guard — the guard is shown to be
vacuous for tagged content). -/
def crossDomainNoveltySpec (user_interests : List String) (c : ContentE) : ℚ :=
  if c.tags = [] then 0
  else ((contentDomains c \ interestDomains user_interests).card : ℚ) /
    ((contentDomains c).card : ℚ)

/-- The bridge component as the claim words it: `0.5` exactly when the
content spans more than one domain. -/
def crossDomainBridgeSpec (c : ContentE) : ℚ :=
  if 1 < (contentDomains c).card then 1/2 else 0

/-- Concrete content for the cross-domain scenario: one item bridging the
technology and health domains. -/
def c9c : ContentE := { id := 1, tags := [⟨1, "ai"⟩, ⟨2, "health"⟩] }

/-- Concrete two-item catalog for the fusion witness. -/
def c1Content : List ContentE := [{ id := 1 }, { id := 2 }]

/-- Concrete TF-IDF score map for the fusion witness. -/
def c1Tfidf : List (Int × ℚ) := [(1, 1/2)]

/-- Concrete catalog where ingestion order and publication order disagree:
item 1 was published last (20) but ingested first (10). -/
def c5db : DBState :=
  { contents := [{ id := 1, created_at := 10, published_at := 20 },
      { id := 2, created_at := 20, published_at := 10 }] }

/-- The path-diversity fraction as the claim words it: unique categories
among the bridging content nodes over their count, `0` when there are
none (no `min(1, ·)` guard — the guard is shown to be vacuous). -/
def contentDiversitySpec (g : CGraph) (path : List CNode) : ℚ :=
  let bridge := ((path.drop 1).dropLast).filter CNode.isContent
  if bridge = [] then 0
  else ((bridge.foldl (fun s n => insert (lookupAttrs g n).category s)
      (∅ : Finset String)).card : ℚ) / (bridge.length : ℚ)

/-- Concrete interest–content–interest path for the novelty witness. -/
def c4path : List CNode := [.interest "a", .content 1, .interest "b"]

/-- The four chain-linked interests of the bridging-free scenario:
consecutive names share one word, the two endpoints share none. -/
def c3Interests : List InterestC :=
  [{ name := "alpha x" }, { name := "x y" }, { name := "y z" },
    { name := "z beta" }]

def nA : CNode := .interest "alpha x"

def nC : CNode := .interest "x y"

def nD : CNode := .interest "y z"

def nB : CNode := .interest "z beta"

/-- The connection graph built from `c3Interests` with an empty catalog:
four interest nodes chained by the three above-threshold edges. -/
def c3g : CGraph :=
  { nodes := [(nA, {}), (nC, {}), (nD, {}), (nB, {})]
    edges := [(nA, nC), (nC, nD), (nD, nB)] }

/-- The single connection produced by the concrete scenario: endpoints
`alpha x` and `z beta`, bridged by two intermediate *interest* nodes —
no content node on the path. -/
def c3conn : Connection :=
  { start_interest := "alpha x", end_interest := "z beta",
    content_bridge := [], novelty_score := 9/10, path_length := 4,
    connection_type := "cross_domain" }

/-! ### Theorems -/

theorem insertD_perm {α β : Type} [LinearOrder β] (key : α → β) (x : α) :
    ∀ l : List α, (insertD key x l).Perm (x :: l) := by
  intro l
  induction l with
  | nil => simp [insertD]
  | cons y ys ih =>
      by_cases h : key x < key y
      · simpa [insertD, h] using ((ih.cons y).trans (List.Perm.swap x y ys))
      · simp [insertD, h]

theorem sortByDesc_perm {α β : Type} [LinearOrder β] (key : α → β) :
    ∀ l : List α, (sortByDesc key l).Perm l := by
  intro l
  induction l with
  | nil => simp [sortByDesc]
  | cons x xs ih =>
      exact (insertD_perm key x (sortByDesc key xs)).trans (ih.cons x)

theorem insertD_sorted {α β : Type} [LinearOrder β] (key : α → β) (x : α)
    (l : List α) (hl : l.Pairwise (fun a b => key b ≤ key a)) :
    (insertD key x l).Pairwise (fun a b => key b ≤ key a) := by
  induction l with
  | nil => simp [insertD]
  | cons y ys ih =>
      rcases List.pairwise_cons.mp hl with ⟨hy, hys⟩
      by_cases h : key x < key y
      · have hins := ih hys
        rw [insertD, if_pos h]
        refine List.pairwise_cons.mpr ⟨?_, hins⟩
        intro b hb
        have hb' : b ∈ x :: ys := (insertD_perm key x ys).mem_iff.mp hb
        rcases List.mem_cons.mp hb' with rfl | hb''
        · exact le_of_lt h
        · exact hy b hb''
      · rw [insertD, if_neg h]
        refine List.pairwise_cons.mpr ⟨?_, hl⟩
        intro b hb
        rcases List.mem_cons.mp hb with rfl | hb'
        · exact le_of_not_lt h
        · exact le_trans (hy b hb') (le_of_not_lt h)

theorem sortByDesc_sorted {α β : Type} [LinearOrder β] (key : α → β) :
    ∀ l : List α, (sortByDesc key l).Pairwise (fun a b => key b ≤ key a) := by
  intro l
  induction l with
  | nil => simp [sortByDesc]
  | cons x xs ih => exact insertD_sorted key x _ ih

theorem sortByDesc_mem {α β : Type} [LinearOrder β] (key : α → β)
    (l : List α) (x : α) : x ∈ sortByDesc key l ↔ x ∈ l :=
  (sortByDesc_perm key l).mem_iff

theorem sortByDesc_length {α β : Type} [LinearOrder β] (key : α → β)
    (l : List α) : (sortByDesc key l).length = l.length :=
  (sortByDesc_perm key l).length_eq

/-- Truncating a descending-sorted list keeps it sorted. -/
theorem pairwise_take {α : Type} {R : α → α → Prop} {l : List α} (n : Nat)
    (h : l.Pairwise R) : (l.take n).Pairwise R :=
  List.Pairwise.sublist (List.take_sublist n l) h

/-- Selection property of sort-then-truncate: anything kept dominates
anything dropped. -/
theorem pairwise_take_drop {α : Type} {R : α → α → Prop} {l : List α} (n : Nat)
    (h : l.Pairwise R) :
    ∀ a ∈ l.take n, ∀ b ∈ l.drop n, R a b := by
  have := List.take_append_drop n l
  rw [← this] at h
  exact (List.pairwise_append.mp h).2.2

/-! ### Lemmas about first-match row updates -/

theorem updFirst_mem {α : Type} (p : α → Bool) (f : α → α) :
    ∀ l : List α, ∀ y ∈ updFirst p f l, y ∈ l ∨ ∃ x, x ∈ l ∧ y = f x := by
  intro l
  induction l with
  | nil => intro y hy; simp [updFirst] at hy
  | cons x xs ih =>
      intro y hy
      by_cases hx : p x = true
      · rw [updFirst, if_pos hx] at hy
        rcases List.mem_cons.mp hy with h | hy'
        · exact Or.inr ⟨x, List.mem_cons_self x xs, h⟩
        · exact Or.inl (List.mem_cons_of_mem x hy')
      · rw [updFirst, if_neg hx] at hy
        rcases List.mem_cons.mp hy with h | hy'
        · rw [h]; exact Or.inl (List.mem_cons_self x xs)
        · rcases ih y hy' with h | ⟨z, hz, hz'⟩
          · exact Or.inl (List.mem_cons_of_mem x h)
          · exact Or.inr ⟨z, List.mem_cons_of_mem x hz, hz'⟩

theorem updFirst_eq_of_none {α : Type} (p : α → Bool) (f : α → α) :
    ∀ l : List α, (∀ x ∈ l, p x = false) → updFirst p f l = l := by
  intro l
  induction l with
  | nil => intro _; rfl
  | cons x xs ih =>
      intro h
      have hx := h x (List.mem_cons_self x xs)
      rw [updFirst, if_neg (by simp [hx]),
        ih (fun y hy => h y (List.mem_cons_of_mem x hy))]

theorem updFirst_first_match {α : Type} (p : α → Bool) (f : α → α) :
    ∀ (pre : List α) (x : α) (post : List α),
      (∀ y ∈ pre, p y = false) → p x = true →
      updFirst p f (pre ++ x :: post) = pre ++ f x :: post := by
  intro pre
  induction pre with
  | nil => intro x post _ hx; simp [updFirst, hx]
  | cons a as ih =>
      intro x post hpre hx
      have ha := hpre a (List.mem_cons_self a as)
      simp only [List.cons_append]
      rw [updFirst, if_neg (by simp [ha]),
        ih x post (fun y hy => hpre y (List.mem_cons_of_mem a hy)) hx]

/-- Any weight written by the per-tag update is clamped into `[0.1, 2.0]`,
and untouched rows keep their (in-range) weight. -/
theorem updateInterestsForTags_range (uid : Int) (change : ℚ) :
    ∀ (tags : List TagB) (interests : List InterestB),
      (∀ i ∈ interests, 0.1 ≤ i.weight ∧ i.weight ≤ 2.0) →
      ∀ i ∈ updateInterestsForTags uid change tags interests,
        0.1 ≤ i.weight ∧ i.weight ≤ 2.0 := by
  intro tags
  induction tags with
  | nil => intro interests h i hi; exact h i hi
  | cons t ts ih =>
      intro interests h i hi
      have hstep : ∀ j ∈ updFirst (interestMatches uid t.name)
          (fun i => { i with weight := max 0.1 (min 2.0 (i.weight + change)) })
          interests, 0.1 ≤ j.weight ∧ j.weight ≤ 2.0 := by
        intro j hj
        rcases updFirst_mem _ _ _ j hj with hj' | ⟨x, _, rfl⟩
        · exact h j hj'
        · exact ⟨le_max_left _ _, max_le (by norm_num) (min_le_left _ _)⟩
      exact ih _ hstep i
        (by simpa [updateInterestsForTags, List.foldl_cons] using hi)

/-- A successful feedback submission preserves the weight-range invariant. -/
theorem submitFeedback_preserves_range (db : DBState) (uid : Int)
    (fb : FeedbackRequestB) (db' : DBState)
    (h : submitFeedback db uid fb = .ok db') (hr : weightsInRange db) :
    weightsInRange db' := by
  unfold submitFeedback at h
  cases hc : findContent db.contents fb.content_id with
  | none => rw [hc] at h; cases h
  | some c =>
      rw [hc] at h
      cases h
      intro i hi
      exact updateInterestsForTags_range uid _ c.tags db.interests hr i hi

/-- Claim C2 — for every sequence of feedback submissions, every user
interest weight stays within `[0.1, 2.0]` after each submission; and a
like on content whose tag matches an interest of weight `1.0` yields
weight `1.1`. -/
theorem submit_feedback_weight_bounds :
    (∀ (db : DBState) (fbs : List (Int × FeedbackRequestB)),
        weightsInRange db → weightsInRange (submitFeedbackSeq db fbs)) ∧
      (submitFeedback
          { contents := [{ id := 1, tags := [{ name := "technology" }] }]
            interests := [{ user_id := 1, topic := "technology", weight := 1 }] }
          1 { content_id := 1, interaction_type := "like" }).map
        (fun d => d.interests.map (·.weight)) = .ok [1.1] := by
  constructor
  · intro db fbs
    induction fbs generalizing db with
    | nil => intro h; exact h
    | cons x rest ih =>
        intro h
        obtain ⟨uid, fb⟩ := x
        rw [submitFeedbackSeq]
        cases hs : submitFeedback db uid fb with
        | ok db' => exact ih db' (submitFeedback_preserves_range db uid fb db' hs h)
        | error e => exact ih db h
  · have hm : interestMatches 1 "technology"
        { user_id := 1, topic := "technology", weight := 1 } = true := by decide
    simp [submitFeedback, findContent, updateInterestsForTags, updFirst, hm,
      weightChangeOf, Except.map, List.find?]
    norm_num [max_def, min_def]

/-- Witness for `submit_feedback_weight_bounds`: the invariant applied to a
concrete one-interest state and a concrete one-like sequence. -/
theorem submit_feedback_weight_bounds_witness :
    weightsInRange (submitFeedbackSeq
      { contents := [{ id := 1, tags := [{ name := "technology" }] }]
        interests := [{ user_id := 1, topic := "technology", weight := 1 }] }
      [(1, { content_id := 1, interaction_type := "like" })]) := by
  refine submit_feedback_weight_bounds.1 _ _ ?_
  intro i hi
  simp only [List.mem_singleton] at hi
  subst hi
  exact ⟨by norm_num, by norm_num⟩

/-- Claim C6 (amended) — when a recommendation row exists for the pair,
feedback leaves its stored score unchanged and sets its `clicked` flag
to whether the interaction type is a like or a view. -/
theorem submit_feedback_clicked_not_score :
    ∀ (db : DBState) (uid : Int) (fb : FeedbackRequestB) (c : ContentB)
      (pre : List RecB) (r : RecB) (post : List RecB),
      findContent db.contents fb.content_id = some c →
      db.recommendations = pre ++ r :: post →
      (∀ q ∈ pre, recMatches uid fb.content_id q = false) →
      recMatches uid fb.content_id r = true →
      ∃ db', submitFeedback db uid fb = .ok db' ∧
        db'.recommendations = pre ++
          { r with clicked := fb.interaction_type = "like" ∨
              fb.interaction_type = "view" } :: post ∧
        db'.recommendations.map (·.score) = db.recommendations.map (·.score) := by
  intro db uid fb c pre r post hc hrec hpre hr
  unfold submitFeedback
  rw [hc]
  refine ⟨_, rfl, ?_, ?_⟩
  · show updFirst (recMatches uid fb.content_id) _ db.recommendations = _
    rw [hrec, updFirst_first_match _ _ pre r post hpre hr]
  · show (updFirst (recMatches uid fb.content_id) _ db.recommendations).map _ = _
    rw [hrec, updFirst_first_match _ _ pre r post hpre hr]
    simp

/-- Witness for `submit_feedback_clicked_not_score` at a concrete state:
a dislike leaves the stored score `0.25` unchanged and marks the row
unclicked. -/
theorem submit_feedback_clicked_not_score_witness :
    (submitFeedback
        { contents := [{ id := 1 }]
          recommendations := [{ user_id := 1, content_id := 1, score := 0.25 }] }
        1 { content_id := 1, interaction_type := "dislike" }).map
      (fun d => (d.recommendations.map (·.score),
        d.recommendations.map (·.clicked))) = .ok ([0.25], [false]) := by
  obtain ⟨db', hok, hrec, hsc⟩ := submit_feedback_clicked_not_score
    { contents := [{ id := 1 }]
      recommendations := [{ user_id := 1, content_id := 1, score := 0.25 }] }
    1 { content_id := 1, interaction_type := "dislike" } { id := 1 }
    [] { user_id := 1, content_id := 1, score := 0.25 } []
    (by decide) rfl (by simp) (by decide)
  rw [hok, Except.map]
  rw [hrec]
  simp

/-- Counterexample to C6 as stated: feedback on a pair with an existing
recommendation record of score `0.5` leaves the score at `0.5` (only
`clicked` changes), whereas the claim requires the like to move it to
`0.5 + 0.1 = 0.6`. -/
theorem submit_feedback_score_not_adjusted :
    (submitFeedback
        { contents := [{ id := 1 }]
          recommendations := [{ user_id := 1, content_id := 1, score := 0.5 }] }
        1 { content_id := 1, interaction_type := "like" }).map
      (fun d => d.recommendations.map (·.score)) = .ok [0.5] ∧
      ¬ ((0.5 : ℚ) = max 0 (min 1 (0.5 + 0.1))) := by
  constructor
  · have hm : recMatches 1 1
        ({ user_id := 1, content_id := 1, score := 0.5 } : RecB) = true := by decide
    simp [submitFeedback, findContent, updateInterestsForTags, updFirst, hm,
      weightChangeOf, Except.map, List.find?]
  · norm_num [max_def, min_def]

/-- Claim C7 — feedback on existing content with no prior recommendation
record for the pair succeeds, appends the interaction to the log,
applies the per-tag interest-weight updates, and touches nothing else. -/
theorem submit_feedback_missing_record :
    ∀ (db : DBState) (uid : Int) (fb : FeedbackRequestB) (c : ContentB),
      findContent db.contents fb.content_id = some c →
      (∀ r ∈ db.recommendations, recMatches uid fb.content_id r = false) →
      ∃ db', submitFeedback db uid fb = .ok db' ∧
        db'.interactions = db.interactions ++
          [{ user_id := uid, content_id := fb.content_id,
             interaction_type := fb.interaction_type,
             duration := fb.duration }] ∧
        db'.interests = updateInterestsForTags uid
          (weightChangeOf fb.interaction_type) c.tags db.interests ∧
        db'.recommendations = db.recommendations ∧
        db'.contents = db.contents := by
  intro db uid fb c hc hnone
  unfold submitFeedback
  rw [hc]
  refine ⟨_, rfl, rfl, rfl, ?_, rfl⟩
  exact updFirst_eq_of_none _ _ db.recommendations hnone

/-- Witness for `submit_feedback_missing_record`: a like on content id 1
with an empty recommendation table succeeds and appends the interaction. -/
theorem submit_feedback_missing_record_witness :
    (submitFeedback
        { contents := [{ id := 1, tags := [{ name := "technology" }] }]
          interests := [{ user_id := 1, topic := "technology", weight := 1 }] }
        1 { content_id := 1, interaction_type := "like" }).map
      (fun d => (d.interactions.length, d.recommendations.length)) =
      .ok (1, 0) := by
  obtain ⟨db', hok, hints, hws, hrecs, hcont⟩ := submit_feedback_missing_record
    { contents := [{ id := 1, tags := [{ name := "technology" }] }]
      interests := [{ user_id := 1, topic := "technology", weight := 1 }] }
    1 { content_id := 1, interaction_type := "like" }
    { id := 1, tags := [{ name := "technology" }] }
    (by decide) (by simp)
  rw [hok, Except.map]
  rw [hints, hrecs]
  simp

/-- Claim C10 (amended) — on a view of existing content, for each content
tag the *first* user interest (in row order) whose topic contains the
tag name case-insensitively gets `+0.05` on its weight, clamped to
`[0.1, 2.0]`; every other row, matching or not, is unchanged (stated
for single-tag content, where the per-tag sequencing is trivial). -/
theorem submit_feedback_view_first_match :
    ∀ (db : DBState) (uid : Int) (fb : FeedbackRequestB) (c : ContentB)
      (t : TagB) (pre : List InterestB) (i : InterestB)
      (post : List InterestB),
      fb.interaction_type = "view" →
      findContent db.contents fb.content_id = some c →
      c.tags = [t] →
      db.interests = pre ++ i :: post →
      (∀ j ∈ pre, interestMatches uid t.name j = false) →
      interestMatches uid t.name i = true →
      ∃ db', submitFeedback db uid fb = .ok db' ∧
        db'.interests = pre ++
          { i with weight := max 0.1 (min 2.0 (i.weight + 0.05)) } :: post := by
  intro db uid fb c t pre i post hv hc htags hints hpre hi
  unfold submitFeedback
  rw [hc]
  refine ⟨_, rfl, ?_⟩
  show updateInterestsForTags uid (weightChangeOf fb.interaction_type)
    c.tags db.interests = _
  rw [htags, hints, hv]
  show updFirst (interestMatches uid t.name) _ (pre ++ i :: post) = _
  rw [updFirst_first_match _ _ pre i post hpre hi]
  have hwc : weightChangeOf "view" = 0.05 := by
    rw [weightChangeOf, if_neg (by decide), if_neg (by decide), if_pos rfl]
  simp [hwc]

/-- Witness for `submit_feedback_view_first_match`: a view on singly
tagged content with one matching interest of weight `1.0` yields weight
`1.05`. -/
theorem submit_feedback_view_first_match_witness :
    (submitFeedback
        { contents := [{ id := 1, tags := [{ name := "tech" }] }]
          interests := [{ user_id := 1, topic := "tech news", weight := 1 }] }
        1 { content_id := 1, interaction_type := "view" }).map
      (fun d => d.interests.map (·.weight)) = .ok [1.05] := by
  obtain ⟨db', hok, hints⟩ := submit_feedback_view_first_match
    { contents := [{ id := 1, tags := [{ name := "tech" }] }]
      interests := [{ user_id := 1, topic := "tech news", weight := 1 }] }
    1 { content_id := 1, interaction_type := "view" }
    { id := 1, tags := [{ name := "tech" }] } { name := "tech" }
    [] { user_id := 1, topic := "tech news", weight := 1 } []
    rfl (by decide) rfl rfl (by simp) (by decide)
  rw [hok, Except.map, hints]
  simp
  norm_num [max_def, min_def]

/-- Counterexample to C10 as stated: with two interests both matching the
single content tag `tech`, a view updates only the first row — the
second matching interest keeps weight `1`, not `1 + 0.05`. -/
theorem submit_feedback_view_second_match_unchanged :
    (submitFeedback
        { contents := [{ id := 1, tags := [{ name := "tech" }] }]
          interests := [{ user_id := 1, topic := "tech news", weight := 1 },
            { user_id := 1, topic := "tech alerts", weight := 1 }] }
        1 { content_id := 1, interaction_type := "view" }).map
      (fun d => d.interests.map (·.weight)) = .ok [1.05, 1] ∧
      interestMatches 1 "tech"
        { user_id := 1, topic := "tech alerts", weight := 1 } = true ∧
      ¬ ((1 : ℚ) = max 0.1 (min 2.0 (1 + 0.05))) := by
  refine ⟨?_, by decide, by norm_num [max_def, min_def]⟩
  have h1 : interestMatches 1 "tech"
      ({ user_id := 1, topic := "tech news", weight := 1 } : InterestB) = true := by
    decide
  simp [submitFeedback, findContent, updateInterestsForTags, updFirst, h1,
    weightChangeOf, Except.map, List.find?]
  norm_num [max_def, min_def]

/-! ### Lemmas about dictionary folds -/

theorem lookup_dInsert_self {β : Type} (k : Int) (v : β) :
    ∀ d : List (Int × β), (dInsert k v d).lookup k = some v := by
  intro d
  induction d with
  | nil => simp [dInsert, List.lookup]
  | cons p rest ih =>
      obtain ⟨k', v'⟩ := p
      by_cases h : k' = k
      · subst h; simp [dInsert, List.lookup]
      · have hbeq : (k == k') = false := by simp [Ne.symm h]
        simp [dInsert, h, List.lookup, hbeq, ih]

theorem lookup_dInsert_ne {β : Type} (k k' : Int) (v : β) (h : k' ≠ k) :
    ∀ d : List (Int × β), (dInsert k v d).lookup k' = d.lookup k' := by
  intro d
  induction d with
  | nil =>
      have hbeq : (k' == k) = false := by simp [h]
      simp [dInsert, List.lookup, hbeq]
  | cons p rest ih =>
      obtain ⟨k'', v''⟩ := p
      by_cases hk : k'' = k
      · subst hk
        have hbeq : (k' == k'') = false := by simp [h]
        simp [dInsert, List.lookup, hbeq]
      · by_cases hk' : k' = k''
        · subst hk'; simp [dInsert, hk, List.lookup]
        · have hbeq : (k' == k'') = false := by simp [hk']
          simp [dInsert, hk, List.lookup, hbeq, ih]

/-- A fold of id-keyed inserts whose written value depends only on the key:
every folded-over id ends up mapped to its value. -/
theorem lookup_foldl_dInsert_keyfn (w : Int → ℚ) :
    ∀ (content : List ContentE) (m : List (Int × ℚ)) (k : Int),
      (k ∈ content.map (·.id) ∨ m.lookup k = some (w k)) →
      ((content.foldl (fun m c => dInsert c.id (w c.id) m) m).lookup k)
        = some (w k) := by
  intro content
  induction content with
  | nil =>
      intro m k h
      rcases h with h | h
      · simp at h
      · simpa using h
  | cons a rest ih =>
      intro m k h
      rw [List.foldl_cons]
      by_cases hk : k = a.id
      · subst hk
        exact ih _ _ (Or.inr (lookup_dInsert_self _ _ m))
      · rcases h with h | h
        · rcases List.mem_map.mp h with ⟨c, hc, hcid⟩
          rcases List.mem_cons.mp hc with hca | hc'
          · exact absurd hcid (by rw [hca]; exact fun hh => hk hh.symm)
          · exact ih _ _ (Or.inl (List.mem_map.mpr ⟨c, hc', hcid⟩))
        · exact ih _ _ (Or.inr (by rw [lookup_dInsert_ne _ _ _ hk]; exact h))

/-- A fold of id-keyed inserts never touches keys it does not fold over. -/
theorem lookup_foldl_dInsert_skip (vf : ContentE → ℚ) :
    ∀ (content : List ContentE) (m : List (Int × ℚ)) (k : Int),
      (∀ x ∈ content, x.id ≠ k) →
      ((content.foldl (fun m c => dInsert c.id (vf c) m) m).lookup k)
        = m.lookup k := by
  intro content
  induction content with
  | nil => intro m k _; rfl
  | cons a rest ih =>
      intro m k h
      rw [List.foldl_cons,
        ih _ _ (fun x hx => h x (List.mem_cons_of_mem a hx)),
        lookup_dInsert_ne _ _ _
          (fun hh => h a (List.mem_cons_self a rest) hh.symm)]

/-- A fold of id-keyed inserts over a duplicate-free id list maps each
folded-over item's id to that item's value. -/
theorem lookup_foldl_dInsert_nodup (vf : ContentE → ℚ) :
    ∀ (content : List ContentE) (m : List (Int × ℚ)) (c : ContentE),
      (content.map (·.id)).Nodup → c ∈ content →
      ((content.foldl (fun m x => dInsert x.id (vf x) m) m).lookup c.id)
        = some (vf c) := by
  intro content
  induction content with
  | nil => intro m c _ hc; simp at hc
  | cons a rest ih =>
      intro m c hnd hc
      rw [List.map_cons] at hnd
      have hnd' := List.nodup_cons.mp hnd
      rw [List.foldl_cons]
      rcases List.mem_cons.mp hc with hca | hc'
      · subst hca
        rw [lookup_foldl_dInsert_skip vf rest _ c.id
          (fun x hx hxe => hnd'.1 (hxe ▸ List.mem_map.mpr ⟨x, hx, rfl⟩))]
        exact lookup_dInsert_self _ _ m
      · exact ih _ c hnd'.2 hc'

theorem lookup_matrixInsert_ne (u uid i : Int) (r : ℚ) (h : u ≠ uid) :
    ∀ m, (matrixInsert u i r m).lookup uid = m.lookup uid := by
  intro m
  induction m with
  | nil =>
      have hbeq : (uid == u) = false := by simp [Ne.symm h]
      simp [matrixInsert, List.lookup, hbeq]
  | cons p rest ih =>
      obtain ⟨u', row⟩ := p
      by_cases hu : u' = u
      · subst hu
        have hbeq : (uid == u') = false := by simp [Ne.symm h]
        simp [matrixInsert, List.lookup, hbeq]
      · rw [matrixInsert, if_neg hu]
        cases hbe : (uid == u') with
        | true => simp [List.lookup, hbe]
        | false => simp [List.lookup, hbe, ih]

/-- A user with no interactions in the log has no row in the user-item
matrix. -/
theorem matrix_foldl_lookup_none (uid : Int) :
    ∀ (interactions : List InteractionE) (m : List (Int × List (Int × ℚ))),
      (∀ t ∈ interactions, t.user_id ≠ uid) → m.lookup uid = none →
      ((interactions.foldl
        (fun m t => matrixInsert t.user_id t.content_id
          (if t.interaction_type = "like" then 1 else 1/2) m) m).lookup uid)
        = none := by
  intro interactions
  induction interactions with
  | nil => intro m _ hm; exact hm
  | cons t rest ih =>
      intro m h hm
      rw [List.foldl_cons]
      exact ih _ (fun x hx => h x (List.mem_cons_of_mem t hx))
        (by rw [lookup_matrixInsert_ne _ _ _ _
          (h t (List.mem_cons_self t rest)) m]; exact hm)

theorem matrix_lookup_none (uid : Int) (interactions : List InteractionE)
    (h : ∀ t ∈ interactions, t.user_id ≠ uid) :
    (buildUserItemMatrix interactions).lookup uid = none :=
  matrix_foldl_lookup_none uid interactions [] h rfl

/-- Claim C8 (amended) — the collaborative scorer returns the empty map only
when the whole interaction log is empty; when the log is nonempty but
the target user has no interactions or no similar neighbor exists, it
returns a map assigning `0.0` to every content item (the
division-guarded branch, so no division by zero is reached). -/
theorem collaborative_scores_degenerate_cases :
    (∀ (uid : Int) (content : List ContentE),
        calculateCollaborativeScores uid [] content = []) ∧
      (∀ (uid : Int) (interactions : List InteractionE)
          (content : List ContentE),
          interactions ≠ [] →
          findSimilarUsers uid (buildUserItemMatrix interactions) = [] →
          ∀ c ∈ content,
            (calculateCollaborativeScores uid interactions content).lookup c.id
              = some 0) ∧
      (∀ (uid : Int) (interactions : List InteractionE),
          (∀ t ∈ interactions, t.user_id ≠ uid) →
          findSimilarUsers uid (buildUserItemMatrix interactions) = []) := by
  refine ⟨?_, ?_, ?_⟩
  · intro uid content
    simp [calculateCollaborativeScores]
  · intro uid interactions content hne hsim c hc
    simp only [calculateCollaborativeScores, if_neg hne]
    rw [hsim]
    simp only [List.foldl_nil, lt_self_iff_false, if_false]
    exact lookup_foldl_dInsert_keyfn (fun _ => 0) content [] c.id
      (Or.inl (List.mem_map.mpr ⟨c, hc, rfl⟩))
  · intro uid interactions h
    unfold findSimilarUsers
    rw [matrix_lookup_none uid interactions h]

/-- Witness for `collaborative_scores_degenerate_cases`: target user 1 has
no interactions in a nonempty log, so content 5 is scored `0.0` (not
dropped from the map). -/
theorem collaborative_scores_degenerate_cases_witness :
    (calculateCollaborativeScores 1 c8Log c8Content).lookup 5 = some 0 := by
  have hun : ∀ t ∈ c8Log, t.user_id ≠ 1 := by
    intro t ht
    simp only [c8Log, List.mem_singleton] at ht
    subst ht
    decide
  have hsim := collaborative_scores_degenerate_cases.2.2 1 c8Log hun
  have hz := collaborative_scores_degenerate_cases.2.1 1 c8Log c8Content
    (by simp [c8Log]) hsim { id := 5 } (by simp [c8Content])
  simpa using hz

/-- Counterexample to C8 as stated: a nonempty log in which the target
user does not appear yields the singleton map `[(5, 0)]`, not the empty
map the claim requires. -/
theorem collaborative_scores_zero_not_empty :
    calculateCollaborativeScores 1 c8Log c8Content = [(5, 0)] ∧
      ([(5, 0)] : List (Int × ℚ)) ≠ [] := by
  constructor
  · have hne : c8Log ≠ [] := by simp [c8Log]
    have hsim : findSimilarUsers 1 (buildUserItemMatrix c8Log) = [] := by
      unfold findSimilarUsers
      rw [matrix_lookup_none 1 c8Log (by
        intro t ht
        simp only [c8Log, List.mem_singleton] at ht
        subst ht
        decide)]
    simp only [calculateCollaborativeScores, if_neg hne]
    rw [hsim]
    simp only [c8Content, List.foldl_cons, List.foldl_nil, lt_self_iff_false,
      if_false]
    rfl
  · simp

theorem foldl_insert_superset (g : TagE → String) :
    ∀ (ts : List TagE) (s : Finset String),
      s ⊆ ts.foldl (fun s tg => insert (g tg) s) s := by
  intro ts
  induction ts with
  | nil => intro s; simp
  | cons t ts ih =>
      intro s
      rw [List.foldl_cons]
      exact subset_trans (Finset.subset_insert _ s) (ih _)

/-- Tagged content always has at least one domain (every tag classifies,
defaulting to `general`). -/
theorem contentDomains_nonempty (c : ContentE) (h : c.tags ≠ []) :
    (contentDomains c).Nonempty := by
  unfold contentDomains
  cases htag : c.tags with
  | nil => exact absurd htag h
  | cons t ts =>
      rw [List.foldl_cons]
      have hsub := foldl_insert_superset (fun tg => extractDomain tg.name) ts
        (insert (extractDomain t.name) ∅)
      exact (Finset.insert_nonempty _ _).mono hsub

/-- Helper: a value already inside `[0, 1]` equals its clamp. -/
theorem eq_clamp01_of_bounds (v : ℚ) (h0 : 0 ≤ v) (h1 : v ≤ 1) :
    v = min 1 (max 0 v) := by rw [max_eq_right h0, min_eq_right h1]

/-- Claim C9 — each content item's cross-domain score is
`0.7·novelty + 0.3·bridge`, which always lies in `[0, 1]` and therefore
equals its clamp to `[0, 1]`, with novelty and bridge exactly as the
claim states them. -/
theorem cross_domain_score_formula :
    ∀ (user_interests : List String) (content_data : List ContentE),
      (content_data.map (·.id)).Nodup →
      ∀ c ∈ content_data,
        (calculateCrossDomainScores user_interests content_data).lookup c.id =
          some (min 1 (max 0 (0.7 * crossDomainNoveltySpec user_interests c +
            0.3 * crossDomainBridgeSpec c))) := by
  intro ui content hnd c hc
  have hcode : (calculateCrossDomainScores ui content).lookup c.id =
      some (0.7 * (((contentDomains c \ interestDomains ui).card : ℚ) /
          (max (contentDomains c).card 1 : ℚ)) +
        0.3 * (if 1 < (contentDomains c).card then (1/2 : ℚ) else 0)) :=
    lookup_foldl_dInsert_nodup _ content [] c hnd hc
  rw [hcode]
  congr 1
  by_cases htags : c.tags = []
  · have hdom : contentDomains c = ∅ := by
      unfold contentDomains
      rw [htags]
      rfl
    rw [crossDomainNoveltySpec, if_pos htags, crossDomainBridgeSpec, hdom]
    norm_num
  · have hpos : 0 < (contentDomains c).card :=
      Finset.card_pos.mpr (contentDomains_nonempty c htags)
    have hmax : max ((contentDomains c).card : ℚ) 1
        = ((contentDomains c).card : ℚ) :=
      max_eq_left (by exact_mod_cast hpos)
    rw [hmax, crossDomainNoveltySpec, if_neg htags, crossDomainBridgeSpec]
    have hdq : (0 : ℚ) < ((contentDomains c).card : ℚ) := by
      exact_mod_cast hpos
    have hn_le : ((contentDomains c \ interestDomains ui).card : ℚ) ≤
        ((contentDomains c).card : ℚ) := by
      exact_mod_cast Finset.card_le_card (Finset.sdiff_subset)
    have hq0 : 0 ≤ ((contentDomains c \ interestDomains ui).card : ℚ) /
        ((contentDomains c).card : ℚ) :=
      div_nonneg (by positivity) (le_of_lt hdq)
    have hq1 : ((contentDomains c \ interestDomains ui).card : ℚ) /
        ((contentDomains c).card : ℚ) ≤ 1 := (div_le_one hdq).mpr hn_le
    by_cases hbr : 1 < (contentDomains c).card
    · rw [if_pos hbr]
      exact eq_clamp01_of_bounds _ (by nlinarith) (by nlinarith)
    · rw [if_neg hbr]
      exact eq_clamp01_of_bounds _ (by nlinarith) (by nlinarith)

/-- Witness for `cross_domain_score_formula`: for a politics-interested
user, content tagged `ai` and `health` scores
`0.7·1 + 0.3·0.5 = 0.85`. -/
theorem cross_domain_score_formula_witness :
    (calculateCrossDomainScores ["politics"] [c9c]).lookup 1 = some 0.85 := by
  have h := cross_domain_score_formula ["politics"] [c9c] (by simp)
    c9c (by simp)
  have hid : c9c.id = 1 := rfl
  rw [hid] at h
  rw [h]
  congr 1
  have h1 : crossDomainNoveltySpec ["politics"] c9c = 1 := by
    rw [crossDomainNoveltySpec, if_neg (by decide)]
    have hcd : (contentDomains c9c).card = 2 := by decide
    have hnd2 : ((contentDomains c9c) \ (interestDomains ["politics"])).card
        = 2 := by decide
    rw [hcd, hnd2]
    norm_num
  have h2 : crossDomainBridgeSpec c9c = 1/2 := by
    rw [crossDomainBridgeSpec, if_pos (by decide)]
  rw [h1, h2]
  norm_num

theorem dGet_eq_of_lookup {β : Type} (d : List (Int × β)) (k : Int) (v dflt : β)
    (h : d.lookup k = some v) : dGet d k dflt = v := by
  rw [dGet, h]

/-- The fused-score map assigns every catalog id its fused score. -/
theorem hybridFinalScores_dGet (tfidf collab graph cross : List (Int × ℚ))
    (content_data : List ContentE) (c : ContentE) (hc : c ∈ content_data) :
    dGet (hybridFinalScores tfidf collab graph cross content_data) c.id 0 =
      fusedScore tfidf collab graph cross c.id :=
  dGet_eq_of_lookup _ _ _ _
    (lookup_foldl_dInsert_keyfn (fusedScore tfidf collab graph cross)
      content_data [] c.id (Or.inl (List.mem_map.mpr ⟨c, hc, rfl⟩)))

set_option maxHeartbeats 2000000 in
/-- Claim C1 — the hybrid fusion stage: the four weights sum to 1; every
returned record's score is `0.4·tfidf + 0.3·collaborative + 0.2·graph +
0.1·crossDomain` of its content id (absent map entries contributing 0);
the output is sorted descending by that fused score, has
`min limit |catalog|` entries drawn from the catalog, and omits only
content whose fused score is dominated by every returned record. -/
theorem hybrid_recommendations_fusion :
    ∀ (tfidf collab graph cross : List (Int × ℚ))
      (user_interests : List InterestE) (content_data : List ContentE)
      (limit : Nat) (recs : List RecommendationE),
      recs = getHybridRecommendations tfidf collab graph cross user_interests
        content_data limit →
      ((0.4 : ℚ) + 0.3 + 0.2 + 0.1 = 1) ∧
      (∀ r ∈ recs, r.score = 0.4 * dGet tfidf r.content.id 0 +
        0.3 * dGet collab r.content.id 0 + 0.2 * dGet graph r.content.id 0 +
        0.1 * dGet cross r.content.id 0) ∧
      recs.Pairwise (fun a b => b.score ≤ a.score) ∧
      recs.length = min limit content_data.length ∧
      (recs.map (·.content)).Subperm content_data ∧
      (∀ r ∈ recs, ∀ c ∈ content_data, c ∉ recs.map (·.content) →
        0.4 * dGet tfidf c.id 0 + 0.3 * dGet collab c.id 0 +
          0.2 * dGet graph c.id 0 + 0.1 * dGet cross c.id 0 ≤ r.score) := by
  intro tfidf collab graph cross ui content limit recs hrecs
  have hmapc : recs.map (·.content) =
      (sortByDesc (fun c =>
        dGet (hybridFinalScores tfidf collab graph cross content) c.id 0)
        content).take limit := by
    rw [hrecs]
    simp only [getHybridRecommendations, List.map_map]
    exact List.map_id'' (fun x => rfl) _
  refine ⟨by norm_num, ?_, ?_, ?_, ?_, ?_⟩
  · intro r hr
    rw [hrecs] at hr
    simp only [getHybridRecommendations] at hr
    rcases List.mem_map.mp hr with ⟨c, hcTop, hre⟩
    have hcMem : c ∈ content := (sortByDesc_mem _ content c).mp
      ((List.take_sublist _ _).subset hcTop)
    rw [← hre]
    show dGet (hybridFinalScores tfidf collab graph cross content) c.id 0 = _
    rw [hybridFinalScores_dGet _ _ _ _ _ c hcMem, fusedScore]
  · rw [hrecs]
    simp only [getHybridRecommendations]
    refine List.pairwise_map.mpr ?_
    exact pairwise_take limit
      (sortByDesc_sorted (fun c =>
        dGet (hybridFinalScores tfidf collab graph cross content) c.id 0)
        content)
  · rw [hrecs]
    simp only [getHybridRecommendations, List.length_map, List.length_take,
      sortByDesc_length]
  · rw [hmapc]
    exact ((List.take_sublist _ _).subperm).trans
      (sortByDesc_perm _ content).subperm
  · intro r hr c hcContent hnotin
    rw [hrecs] at hr
    simp only [getHybridRecommendations] at hr
    rcases List.mem_map.mp hr with ⟨a, haTop, hre⟩
    rw [hmapc] at hnotin
    have hcSorted : c ∈ sortByDesc (fun c =>
        dGet (hybridFinalScores tfidf collab graph cross content) c.id 0)
        content := (sortByDesc_mem _ content c).mpr hcContent
    have hsplit : c ∈ (sortByDesc (fun c =>
        dGet (hybridFinalScores tfidf collab graph cross content) c.id 0)
        content).take limit ++ (sortByDesc (fun c =>
        dGet (hybridFinalScores tfidf collab graph cross content) c.id 0)
        content).drop limit := by
      rw [List.take_append_drop]
      exact hcSorted
    have hcDrop : c ∈ (sortByDesc (fun c =>
        dGet (hybridFinalScores tfidf collab graph cross content) c.id 0)
        content).drop limit := by
      rcases List.mem_append.mp hsplit with h | h
      · exact absurd h hnotin
      · exact h
    have hle := pairwise_take_drop limit
      (sortByDesc_sorted (fun c =>
        dGet (hybridFinalScores tfidf collab graph cross content) c.id 0)
        content) a haTop c hcDrop
    have haMem : a ∈ content := (sortByDesc_mem _ content a).mp
      ((List.take_sublist _ _).subset haTop)
    rw [hybridFinalScores_dGet _ _ _ _ _ c hcContent,
      hybridFinalScores_dGet _ _ _ _ _ a haMem, fusedScore] at hle
    calc 0.4 * dGet tfidf c.id 0 + 0.3 * dGet collab c.id 0 +
          0.2 * dGet graph c.id 0 + 0.1 * dGet cross c.id 0
        = fusedScore tfidf collab graph cross c.id := by rw [fusedScore]
      _ ≤ fusedScore tfidf collab graph cross a.id := by
          rw [fusedScore]; exact hle
      _ = r.score := by
          rw [← hre]
          show _ = dGet (hybridFinalScores tfidf collab graph cross content)
            a.id 0
          rw [hybridFinalScores_dGet _ _ _ _ _ a haMem]

/-- Witness for `hybrid_recommendations_fusion` at a concrete input: both
catalog items are returned (limit 5 against 2 items). -/
theorem hybrid_recommendations_fusion_witness :
    (getHybridRecommendations c1Tfidf [] [] [] [] c1Content 5).length
      = min 5 2 :=
  (hybrid_recommendations_fusion c1Tfidf [] [] [] [] c1Content 5 _
    rfl).2.2.2.1

/-- Claim C5 (amended) — with zero interests for the user,
`get_recommendations` skips the scorers entirely (its result does not
depend on the text-similarity input and the state is returned
unmodified) and returns the `limit` most-recently-*ingested* content
items in descending `created_at` order; both paths return the bare
`ContentResponse` shape, which carries no score field. -/
theorem get_recommendations_fallback :
    ∀ (db : DBState) (tfidf1 tfidf2 : List (Int × ℚ)) (uid : Int)
      (limit : Nat),
      db.interests.filter (fun i => i.user_id = uid) = [] →
      (getRecommendations db tfidf1 uid limit).2 = db ∧
      getRecommendations db tfidf1 uid limit
        = getRecommendations db tfidf2 uid limit ∧
      ((getRecommendations db tfidf1 uid limit).1).Pairwise
        (fun a b => b.created_at ≤ a.created_at) ∧
      (getRecommendations db tfidf1 uid limit).1.length
        = min limit db.contents.length ∧
      ((getRecommendations db tfidf1 uid limit).1).Subperm db.contents ∧
      (∀ r ∈ (getRecommendations db tfidf1 uid limit).1,
        ∀ c ∈ db.contents, c ∉ (getRecommendations db tfidf1 uid limit).1 →
          c.created_at ≤ r.created_at) := by
  intro db t1 t2 uid limit hfil
  have hval : ∀ t : List (Int × ℚ),
      getRecommendations db t uid limit = (getRecentContent db limit, db) := by
    intro t
    unfold getRecommendations
    rw [hfil]
    rfl
  refine ⟨?_, ?_, ?_, ?_, ?_, ?_⟩
  · rw [hval t1]
  · rw [hval t1, hval t2]
  · rw [hval t1]
    exact pairwise_take limit (sortByDesc_sorted _ db.contents)
  · rw [hval t1]
    simp only [getRecentContent, List.length_take, sortByDesc_length]
  · rw [hval t1]
    exact ((List.take_sublist _ _).subperm).trans
      (sortByDesc_perm _ db.contents).subperm
  · rw [hval t1]
    intro r hr c hc hnot
    have hcSorted : c ∈ sortByDesc (fun c => c.created_at) db.contents :=
      (sortByDesc_mem _ db.contents c).mpr hc
    have hsplit : c ∈ (sortByDesc (fun c : ContentB => c.created_at)
        db.contents).take limit ++ (sortByDesc
        (fun c : ContentB => c.created_at) db.contents).drop limit := by
      rw [List.take_append_drop]
      exact hcSorted
    have hcDrop : c ∈ (sortByDesc (fun c : ContentB => c.created_at)
        db.contents).drop limit := by
      rcases List.mem_append.mp hsplit with h | h
      · exact absurd h hnot
      · exact h
    exact pairwise_take_drop limit
      (sortByDesc_sorted (fun c : ContentB => c.created_at) db.contents)
      r hr c hcDrop

/-- Witness for `get_recommendations_fallback`: both items are returned for
a user with no interests. -/
theorem get_recommendations_fallback_witness :
    (getRecommendations c5db [] 1 2).1.length = min 2 2 :=
  (get_recommendations_fallback c5db [] [] 1 2 rfl).2.2.2.1

/-- Counterexample to C5 as stated: the zero-interest fallback orders by
`created_at` (ingestion time), not `published_at` — the most recently
*published* item (id 1) comes second, so the output is not in
descending publication-recency order (and the returned
`ContentResponse` rows carry no score field at all). -/
theorem get_recommendations_fallback_not_published_order :
    (getRecommendations c5db [] 1 2).1.map (fun c => c.id) = [2, 1] ∧
      (getRecommendations c5db [] 1 2).1.map (fun c => c.published_at)
        = [10, 20] ∧
      ¬ ((10 : Int) ≥ 20) := by
  refine ⟨?_, ?_, by decide⟩
  · decide
  · decide

theorem foldl_insert_card_le (f : CNode → String) :
    ∀ (l : List CNode) (s : Finset String),
      (l.foldl (fun s n => insert (f n) s) s).card ≤ s.card + l.length := by
  intro l
  induction l with
  | nil => intro s; simp
  | cons n ns ih =>
      intro s
      rw [List.foldl_cons]
      calc (ns.foldl (fun s n => insert (f n) s) (insert (f n) s)).card
          ≤ (insert (f n) s).card + ns.length := ih _
        _ ≤ (s.card + 1) + ns.length := by
            exact Nat.add_le_add_right (Finset.card_insert_le _ _) _
        _ = s.card + (n :: ns).length := by
            simp [List.length_cons]
            omega

/-- The `min(1, ·)` in `_calculate_content_diversity` is vacuous: the
category count never exceeds the bridging-node count. -/
theorem contentDiversity_eq_spec (g : CGraph) (path : List CNode) :
    calculateContentDiversity g path = contentDiversitySpec g path := by
  rw [calculateContentDiversity, contentDiversitySpec]
  by_cases hb : ((path.drop 1).dropLast).filter CNode.isContent = []
  · rw [if_pos hb, if_pos hb]
  · rw [if_neg hb, if_neg hb]
    have hlen : 0 < (((path.drop 1).dropLast).filter CNode.isContent).length :=
      List.length_pos.mpr hb
    have hcard : ((((path.drop 1).dropLast).filter CNode.isContent).foldl
        (fun s n => insert (lookupAttrs g n).category s)
        (∅ : Finset String)).card ≤
        (((path.drop 1).dropLast).filter CNode.isContent).length := by
      have := foldl_insert_card_le (fun n => (lookupAttrs g n).category)
        (((path.drop 1).dropLast).filter CNode.isContent) ∅
      simpa using this
    have hq : ((((path.drop 1).dropLast).filter CNode.isContent).foldl
        (fun s n => insert (lookupAttrs g n).category s)
        (∅ : Finset String)).card / ((((path.drop 1).dropLast).filter
          CNode.isContent).length : ℚ) ≤ 1 := by
      rw [div_le_one (by exact_mod_cast hlen)]
      exact_mod_cast hcard
    exact min_eq_right hq

/-- Claim C4 — the novelty score of a nonempty path equals
`0.3·(pathLength − 2) + 0.4·contentCategoryDiversity +
0.3·(1 − directSimilarity(endpoints))` clamped to `[0, 1]`, with the
diversity fraction exactly as the claim words it. -/
theorem novelty_score_formula :
    ∀ (g : CGraph) (path : List CNode), path ≠ [] →
      calculateNoveltyScore g path =
        min 1 (max 0 (0.3 * ((path.length : ℚ) - 2) +
          0.4 * contentDiversitySpec g path +
          0.3 * (1 - calculateInterestSimilarity path.headI.nodeName
            path.getLastI.nodeName))) := by
  intro g path hne
  cases path with
  | nil => exact absurd rfl hne
  | cons h t =>
      rw [calculateNoveltyScore, contentDiversity_eq_spec]
      congr 1
      congr 1
      ring

/-- Witness for `novelty_score_formula`: on an empty-attribute graph, the
3-node path through one content node scores
`min(1, 0.3·1 + 0.4·1 + 0.3·1) = 1`. -/
theorem novelty_score_formula_witness :
    calculateNoveltyScore ({} : CGraph) c4path = 1 := by
  have h := novelty_score_formula {} c4path (by simp [c4path])
  rw [h]
  have hhead : c4path.headI.nodeName = "a" := rfl
  have hlast : c4path.getLastI.nodeName = "b" := rfl
  rw [hhead, hlast]
  have h1 : contentDiversitySpec ({} : CGraph) c4path = 1 := by
    have hb : ((c4path.drop 1).dropLast).filter CNode.isContent
        = [CNode.content 1] := by decide
    simp only [contentDiversitySpec, hb]
    rw [if_neg (by simp)]
    have hc : (([CNode.content 1]).foldl
        (fun s n => insert (lookupAttrs ({} : CGraph) n).category s)
        (∅ : Finset String)).card = 1 := by decide
    rw [hc]
    norm_num
  have h2 : calculateInterestSimilarity "a" "b" = 0 := by
    rw [calculateInterestSimilarity, calculateTagSimilarity]
    rw [if_neg (by simp), if_neg (by decide)]
    have hi : ((pyWords "a").toFinset ∩
        ((["b"].flatMap (fun t => pyWords t)).toFinset : Finset (List Nat))).card
        = 0 := by decide
    have hu : ((pyWords "a").toFinset ∪
        ((["b"].flatMap (fun t => pyWords t)).toFinset : Finset (List Nat))).card
        = 2 := by decide
    rw [hi, hu]
    norm_num
  rw [h1, h2]
  have hlen : ((c4path.length : ℚ) - 2) = 1 := by norm_num [c4path]
  rw [hlen]
  norm_num [max_def, min_def]

/-- The similarity value in the non-degenerate case: plain Jaccard of the
word sets. -/
theorem interestSim_value (s1 s2 : String)
    (hnz : ¬((pyWords s1).toFinset = (∅ : Finset (List Nat)) ∨
      (([s2].flatMap (fun t => pyWords t)).toFinset
        = (∅ : Finset (List Nat))))) :
    calculateInterestSimilarity s1 s2 =
      (((pyWords s1).toFinset ∩
        ([s2].flatMap (fun t => pyWords t)).toFinset).card : ℚ) /
      (((pyWords s1).toFinset ∪
        ([s2].flatMap (fun t => pyWords t)).toFinset).card : ℚ) := by
  rw [calculateInterestSimilarity, calculateTagSimilarity,
    if_neg (by simp), if_neg hnz]

theorem simAC : calculateInterestSimilarity "alpha x" "x y" = 1/3 := by
  rw [interestSim_value _ _ (by decide)]
  have hi : (((pyWords "alpha x").toFinset ∩
      (["x y"].flatMap (fun t => pyWords t)).toFinset).card) = 1 := by decide
  have hu : (((pyWords "alpha x").toFinset ∪
      (["x y"].flatMap (fun t => pyWords t)).toFinset).card) = 3 := by decide
  rw [hi, hu]
  norm_num

theorem simAD : calculateInterestSimilarity "alpha x" "y z" = 0 := by
  rw [interestSim_value _ _ (by decide)]
  have hi : (((pyWords "alpha x").toFinset ∩
      (["y z"].flatMap (fun t => pyWords t)).toFinset).card) = 0 := by decide
  have hu : (((pyWords "alpha x").toFinset ∪
      (["y z"].flatMap (fun t => pyWords t)).toFinset).card) = 4 := by decide
  rw [hi, hu]
  norm_num

theorem simAB : calculateInterestSimilarity "alpha x" "z beta" = 0 := by
  rw [interestSim_value _ _ (by decide)]
  have hi : (((pyWords "alpha x").toFinset ∩
      (["z beta"].flatMap (fun t => pyWords t)).toFinset).card) = 0 := by decide
  have hu : (((pyWords "alpha x").toFinset ∪
      (["z beta"].flatMap (fun t => pyWords t)).toFinset).card) = 4 := by decide
  rw [hi, hu]
  norm_num

theorem simCD : calculateInterestSimilarity "x y" "y z" = 1/3 := by
  rw [interestSim_value _ _ (by decide)]
  have hi : (((pyWords "x y").toFinset ∩
      (["y z"].flatMap (fun t => pyWords t)).toFinset).card) = 1 := by decide
  have hu : (((pyWords "x y").toFinset ∪
      (["y z"].flatMap (fun t => pyWords t)).toFinset).card) = 3 := by decide
  rw [hi, hu]
  norm_num

theorem simCB : calculateInterestSimilarity "x y" "z beta" = 0 := by
  rw [interestSim_value _ _ (by decide)]
  have hi : (((pyWords "x y").toFinset ∩
      (["z beta"].flatMap (fun t => pyWords t)).toFinset).card) = 0 := by decide
  have hu : (((pyWords "x y").toFinset ∪
      (["z beta"].flatMap (fun t => pyWords t)).toFinset).card) = 4 := by decide
  rw [hi, hu]
  norm_num

theorem simDB : calculateInterestSimilarity "y z" "z beta" = 1/3 := by
  rw [interestSim_value _ _ (by decide)]
  have hi : (((pyWords "y z").toFinset ∩
      (["z beta"].flatMap (fun t => pyWords t)).toFinset).card) = 1 := by decide
  have hu : (((pyWords "y z").toFinset ∪
      (["z beta"].flatMap (fun t => pyWords t)).toFinset).card) = 3 := by decide
  rw [hi, hu]
  norm_num

/-- Evaluating the graph construction on the concrete interests. -/
theorem c3_graph_eval : buildConnectionGraph c3Interests [] = c3g := by
  have h1 : buildConnectionGraph c3Interests [] =
      (pairsUpper c3Interests).foldl
        (fun g ij =>
          if 0.3 < calculateInterestSimilarity ij.1.name ij.2.name then
            addEdge g (.interest ij.1.name) (.interest ij.2.name) else g)
        { nodes := [(nA, {}), (nC, {}), (nD, {}), (nB, {})], edges := [] } :=
    rfl
  rw [h1]
  have hp : pairsUpper c3Interests =
      [(({ name := "alpha x" } : InterestC), ({ name := "x y" } : InterestC)),
        ({ name := "alpha x" }, { name := "y z" }),
        ({ name := "alpha x" }, { name := "z beta" }),
        ({ name := "x y" }, { name := "y z" }),
        ({ name := "x y" }, { name := "z beta" }),
        ({ name := "y z" }, { name := "z beta" })] := rfl
  rw [hp]
  simp only [List.foldl_cons, List.foldl_nil]
  rw [simAC, simAD, simAB, simCD, simCB, simDB]
  norm_num
  rfl

theorem heAC : hasEdge c3g nA nC = true := by decide

theorem heAD : hasEdge c3g nA nD = false := by decide

theorem heAB : hasEdge c3g nA nB = false := by decide

theorem heCD : hasEdge c3g nC nD = true := by decide

theorem heCB : hasEdge c3g nC nB = false := by decide

theorem heDB : hasEdge c3g nD nB = true := by decide

theorem hpAD : shortestPath c3g nA nD = some [nA, nC, nD] := by decide

theorem hpAB : shortestPath c3g nA nB = some [nA, nC, nD, nB] := by decide

theorem hpCB : shortestPath c3g nC nB = some [nC, nD, nB] := by decide

theorem novAD : calculateNoveltyScore c3g [nA, nC, nD] = 3/5 := by
  simp only [calculateNoveltyScore]
  have hd : calculateContentDiversity c3g [nA, nC, nD] = 0 := by
    simp only [calculateContentDiversity]
    rw [if_pos (by decide)]
  have hh : ([nA, nC, nD] : List CNode).headI.nodeName = "alpha x" := rfl
  have hl : ([nA, nC, nD] : List CNode).getLastI.nodeName = "y z" := rfl
  rw [hd, hh, hl, simAD]
  have hlen : ((([nA, nC, nD] : List CNode).length : ℚ)) = 3 := by
    norm_num
  rw [hlen]
  norm_num [max_def, min_def]

theorem novCB : calculateNoveltyScore c3g [nC, nD, nB] = 3/5 := by
  simp only [calculateNoveltyScore]
  have hd : calculateContentDiversity c3g [nC, nD, nB] = 0 := by
    simp only [calculateContentDiversity]
    rw [if_pos (by decide)]
  have hh : ([nC, nD, nB] : List CNode).headI.nodeName = "x y" := rfl
  have hl : ([nC, nD, nB] : List CNode).getLastI.nodeName = "z beta" := rfl
  rw [hd, hh, hl, simCB]
  have hlen : ((([nC, nD, nB] : List CNode).length : ℚ)) = 3 := by
    norm_num
  rw [hlen]
  norm_num [max_def, min_def]

theorem novAB : calculateNoveltyScore c3g [nA, nC, nD, nB] = 9/10 := by
  simp only [calculateNoveltyScore]
  have hd : calculateContentDiversity c3g [nA, nC, nD, nB] = 0 := by
    simp only [calculateContentDiversity]
    rw [if_pos (by decide)]
  have hh : ([nA, nC, nD, nB] : List CNode).headI.nodeName = "alpha x" := rfl
  have hl : ([nA, nC, nD, nB] : List CNode).getLastI.nodeName = "z beta" := rfl
  rw [hd, hh, hl, simAB]
  have hlen : ((([nA, nC, nD, nB] : List CNode).length : ℚ)) = 4 := by
    norm_num
  rw [hlen]
  norm_num [max_def, min_def]

/-- Full evaluation of `find_novel_connections` on the concrete scenario. -/
theorem c3_run_eval : findNovelConnections c3Interests [] 10 = [c3conn] := by
  simp only [findNovelConnections, c3_graph_eval]
  rw [(by decide : ((c3g.nodes.map (·.1)).filter (fun n => ¬ n.isContent))
    = [nA, nC, nD, nB])]
  have hpairs : pairsUpper [nA, nC, nD, nB] =
      [(nA, nC), (nA, nD), (nA, nB), (nC, nD), (nC, nB), (nD, nB)] := by
    decide
  rw [hpairs]
  simp only [List.foldl_cons, List.foldl_nil, heAC, heAD, heAB, heCD, heCB,
    heDB, hpAD, hpAB, hpCB, Bool.false_eq_true, if_false, if_true,
    eq_self_iff_true]
  norm_num [novAD, novAB, novCB]
  rfl

/-- Claim C3 (amended) — every connection returned by
`find_novel_connections` has more than 2 path nodes and novelty score
strictly above `0.7`, and the output is sorted descending by novelty
and truncated to `max_connections`; the path is *not* guaranteed to
pass through a content node (it may run through intermediate interest
nodes only). -/
theorem novel_connections_threshold_sorted :
    ∀ (user_interests : List InterestC) (content_data : List ContentC)
      (mx : Nat),
      (∀ conn ∈ findNovelConnections user_interests content_data mx,
        2 < conn.path_length ∧ (0.7 : ℚ) < conn.novelty_score) ∧
      (findNovelConnections user_interests content_data mx).Pairwise
        (fun a b => b.novelty_score ≤ a.novelty_score) ∧
      (findNovelConnections user_interests content_data mx).length ≤ mx := by
  intro ui content mx
  have hinv : ∀ (pairs : List (CNode × CNode)) (g : CGraph)
      (acc : List Connection),
      (∀ c ∈ acc, 2 < c.path_length ∧ (0.7 : ℚ) < c.novelty_score) →
      ∀ c ∈ pairs.foldl (fun acc ab =>
        if hasEdge g ab.1 ab.2 then acc
        else
          match shortestPath g ab.1 ab.2 with
          | none => acc
          | some path =>
              if 2 < path.length then
                if 0.7 < calculateNoveltyScore g path then
                  acc ++ [createConnectionObject g path
                    (calculateNoveltyScore g path)]
                else acc
              else acc) acc,
        2 < c.path_length ∧ (0.7 : ℚ) < c.novelty_score := by
    intro pairs
    induction pairs with
    | nil => intro g acc h c hc; exact h c hc
    | cons ab rest ih =>
        intro g acc h c hc
        rw [List.foldl_cons] at hc
        refine ih g _ ?_ c hc
        intro d hd
        by_cases he : hasEdge g ab.1 ab.2 = true
        · rw [if_pos he] at hd; exact h d hd
        · rw [if_neg he] at hd
          cases hsp : shortestPath g ab.1 ab.2 with
          | none => simp only [hsp] at hd; exact h d hd
          | some path =>
              simp only [hsp] at hd
              by_cases hlen : 2 < path.length
              · rw [if_pos hlen] at hd
                by_cases hnov : (0.7 : ℚ) < calculateNoveltyScore g path
                · rw [if_pos hnov] at hd
                  rcases List.mem_append.mp hd with hd' | hd'
                  · exact h d hd'
                  · simp only [List.mem_singleton] at hd'
                    subst hd'
                    refine ⟨?_, ?_⟩
                    · simpa [createConnectionObject] using hlen
                    · simpa [createConnectionObject] using hnov
                · rw [if_neg hnov] at hd; exact h d hd
              · rw [if_neg hlen] at hd; exact h d hd
  refine ⟨?_, ?_, ?_⟩
  · intro conn hconn
    simp only [findNovelConnections] at hconn
    have hconn2 := (sortByDesc_mem (fun c : Connection => c.novelty_score) _
      conn).mp ((List.take_sublist _ _).subset hconn)
    exact hinv _ _ [] (by simp) conn hconn2
  · simp only [findNovelConnections]
    exact pairwise_take mx (sortByDesc_sorted _ _)
  · simp only [findNovelConnections]
    exact List.length_take_le _ _

/-- Witness for `novel_connections_threshold_sorted`: the connection
returned in the concrete chained-interests scenario has 4 path nodes
and novelty `0.9 > 0.7`. -/
theorem novel_connections_threshold_sorted_witness :
    2 < c3conn.path_length ∧ (0.7 : ℚ) < c3conn.novelty_score :=
  (novel_connections_threshold_sorted c3Interests [] 10).1 c3conn
    (by rw [c3_run_eval]; exact List.mem_singleton.mpr rfl)

/-- Counterexample to C3 as stated: with four chain-linked interests and
an *empty* content catalog, `find_novel_connections` returns a
connection whose path (4 nodes, novelty `0.9`) passes through no
content node at all — its content bridge is empty. -/
theorem novel_connection_without_content_node :
    findNovelConnections c3Interests [] 10 = [c3conn] ∧
      c3conn.content_bridge = [] ∧ 2 < c3conn.path_length :=
  ⟨c3_run_eval, rfl, by norm_num [c3conn]⟩
